import Mathlib

/-!
Verification of the paintboard client (`paintboard_client.py`) against its
specification.  The Python source is shallowly embedded: bytes are `Nat`
values (< 256 on the domains the theorems quantify over), byte strings are
`List Nat`, the mutable client object is an explicit `ClientState` record,
and fallible code returns `Except`/`Option`.  Python dictionaries are
association lists with dict-style insert/delete helpers.
-/

namespace Paintboard

/-- Callback handles are identified by a number; `none` models Python's
`None` callback stored in `paint_callbacks`. -/
abbrev Callback := Nat

/-- One pixel edit as passed to the client: coordinates, colour and an
optional per-pixel callback (`pixel.get("callback")`). -/
structure Pixel where
  x : Nat
  y : Nat
  r : Nat
  g : Nat
  b : Nat
  callback : Option Callback := none
  deriving Repr, DecidableEq

/-- One authenticated token as stored in `self.tokens`: the account uid and
the 16 bytes obtained from decoding the hex token string (the embedding
works with the decoded bytes; `bytes.fromhex` itself is outside the model,
matching the claim's hypothesis "a token that decodes to exactly 16
bytes"). -/
structure TokenInfo where
  uid : Nat
  tokenBytes : List Nat
  deriving Repr, DecidableEq, BEq

instance : Inhabited TokenInfo := ⟨⟨0, []⟩⟩

/-- A queued batch operation (`{"pixels": ..., "callback": ...}`). -/
structure BatchOp where
  pixels : List Pixel
  callback : Option Callback
  deriving Repr, DecidableEq

/-- Association-list model of the Python dict `paint_callbacks :
paint_id -> callback-or-None`. -/
abbrev CallbackMap := List (Nat × Option Callback)

/-- Dict lookup: `m[k]` as an `Option` (`none` when the key is absent). -/
def dict_lookup (m : CallbackMap) (k : Nat) : Option (Option Callback) :=
  match m with
  | [] => none
  | (k', v) :: rest => if k' = k then some v else dict_lookup rest k

/-- Dict membership test (`k in m`). -/
def dict_mem (m : CallbackMap) (k : Nat) : Bool :=
  (dict_lookup m k).isSome

/-- Dict assignment `m[k] = v`: replaces the value when the key exists,
appends a fresh entry otherwise. -/
def dict_set (m : CallbackMap) (k : Nat) (v : Option Callback) : CallbackMap :=
  match m with
  | [] => [(k, v)]
  | (k', v') :: rest => if k' = k then (k, v) :: rest else (k', v') :: dict_set rest k v

/-- Dict deletion `del m[k]` (the `KeyError` on a missing key is handled at
the call site, see `handle_paint_result`). -/
def dict_del (m : CallbackMap) (k : Nat) : CallbackMap :=
  match m with
  | [] => []
  | (k', v') :: rest => if k' = k then rest else (k', v') :: dict_del rest k

/-- Mutable state of `PaintboardClient` (the fields the verified claims
touch; connection objects and threads are external). -/
structure ClientState where
  tokens : List TokenInfo := []
  current_token_index : Nat := 0
  batch_size : Nat := 10
  cool_down_time : Nat := 1145
  actual_batch_size : Nat := 0
  last_batch_time : Nat := 0
  batch_queue : List BatchOp := []
  paint_id : Nat := 0
  paint_callbacks : CallbackMap := []
  is_drawing_image : Bool := false
  running : Bool := false
  deriving Repr, DecidableEq

/-- Source method `uint_to_bytes`: little-endian byte encoding of `value`
into `num_bytes` bytes (`value & 0xFF`, `value >>= 8` per step).  On the
in-range domains used by the theorems this also equals Python's
`struct.pack('<H', v)` (2 bytes), `struct.pack('<I', v)[:3]` (3 bytes) and
`struct.pack('<I', v)` (4 bytes). -/
def uint_to_bytes (value : Nat) (num_bytes : Nat) : List Nat :=
  match num_bytes with
  | 0 => []
  | n + 1 => (value % 256) :: uint_to_bytes (value / 256) n

/-- Little-endian decoding, the inverse direction of `uint_to_bytes`
(`struct.unpack` on the wire side). -/
def bytes_to_uint : List Nat → Nat
  | [] => 0
  | b :: rest => b + 256 * bytes_to_uint rest

/-- Source method `create_single_paint_data`: allocates a `paint_id`
(incrementing the shared counter modulo 2^32), validates the token byte
length, builds the 31-byte packet
`0xfe | x(2) | y(2) | r g b | uid low24(3) | token(16) | paint_id(4)`,
and registers the pixel's callback under the allocated id.  Returns the
post-state and the packet (`none` models the Python `return None`
failure paths). -/
def create_single_paint_data (st : ClientState) (pixel : Pixel)
    (token_info : TokenInfo) : ClientState × Option (List Nat) :=
  let paint_id := st.paint_id
  let st := { st with paint_id := (st.paint_id + 1) % 4294967296 }
  if token_info.tokenBytes.length ≠ 16 then
    (st, none)
  else
    let paint_data : List Nat :=
      [0xfe] ++ uint_to_bytes pixel.x 2 ++ uint_to_bytes pixel.y 2 ++
        [pixel.r, pixel.g, pixel.b] ++ uint_to_bytes token_info.uid 3 ++
        token_info.tokenBytes ++ uint_to_bytes paint_id 4
    if paint_data.length ≠ 31 then
      (st, none)
    else
      let st := { st with paint_callbacks := dict_set st.paint_callbacks paint_id pixel.callback }
      (st, some paint_data)

/-- Decoded view of one outbound wire packet. -/
structure DecodedPacket where
  x : Nat
  y : Nat
  r : Nat
  g : Nat
  b : Nat
  uid24 : Nat
  token : List Nat
  pid : Nat
  deriving Repr, DecidableEq

/-- Modelled from the spec: the receiver side of the documented wire layout
`opcode(1B)=0xFE | x(2B LE) | y(2B LE) | r | g | b | accountId_low24(3B) |
token(16B) | paintId(4B LE)` (the decoder lives on the server, outside this
repository; this definition follows the layout stated in the spec). -/
def decode_wire_packet (data : List Nat) : Option DecodedPacket :=
  if data.length = 31 ∧ data.getD 0 0 = 0xfe then
    some
      { x := bytes_to_uint ((data.drop 1).take 2)
        y := bytes_to_uint ((data.drop 3).take 2)
        r := data.getD 5 0
        g := data.getD 6 0
        b := data.getD 7 0
        uid24 := bytes_to_uint ((data.drop 8).take 3)
        token := (data.drop 11).take 16
        pid := bytes_to_uint ((data.drop 27).take 4) }
  else none

/-- Status value produced by `get_status_message` (a Python dict with a
`success` flag and a human-readable message). -/
structure StatusMessage where
  success : Bool
  message : String
  deriving Repr, DecidableEq

/-- Source method `get_status_message`: maps a result status code to its
status value; unknown codes map to a generic unknown-status message (the
Python message interpolates the code; the embedding keeps the constant
text). -/
def get_status_message (code : Nat) : StatusMessage :=
  if code = 0xef then ⟨true, "成功"⟩
  else if code = 0xee then ⟨false, "正在冷却"⟩
  else if code = 0xed then ⟨false, "Token无效"⟩
  else if code = 0xec then ⟨false, "请求格式错误"⟩
  else if code = 0xeb then ⟨false, "无权限"⟩
  else if code = 0xea then ⟨false, "服务器错误"⟩
  else ⟨false, "未知状态码"⟩

/-- Source method `handle_paint_result`: when `paint_id` is registered, the
stored callback (if not `None`) is invoked with the mapped status; then the
code runs `del self.paint_callbacks[paint_id]` unconditionally — on an
unregistered `paint_id` that raises `KeyError`, modelled as
`Except.error "KeyError"` (the state is unmutated at the raise point).
After a successful delete, status code `0xef` updates `last_batch_time` to
the current time in milliseconds.  Returns the post-state and the list of
callback invocations performed. -/
def handle_paint_result (st : ClientState) (paint_id code now_ms : Nat) :
    Except String (ClientState × List (Callback × StatusMessage)) :=
  let calls :=
    match dict_lookup st.paint_callbacks paint_id with
    | some (some cb) => [(cb, get_status_message code)]
    | some none => []
    | none => []
  if dict_mem st.paint_callbacks paint_id then
    let st := { st with paint_callbacks := dict_del st.paint_callbacks paint_id }
    let st := if code = 0xef then { st with last_batch_time := now_ms } else st
    Except.ok (st, calls)
  else
    Except.error "KeyError"

/-- Source method `is_batch_cooling_down`: true while less than
`cool_down_time` milliseconds have elapsed since `last_batch_time`. -/
def is_batch_cooling_down (st : ClientState) (now_ms : Nat) : Bool :=
  now_ms - st.last_batch_time < st.cool_down_time

/-- Source method `close`: stops image drawing, clears the batch queue and
stops the loops (the WebSocket close call is external).  Nothing else is
touched — in particular `paint_callbacks` is left as it is. -/
def close (st : ClientState) : ClientState :=
  { st with is_drawing_image := false, batch_queue := [], running := false }

/-- Source method `get_next_token`: raises when the pool is empty,
otherwise returns the token at the cursor and advances the cursor by one
modulo the pool size (Python list indexing out of range is the
`IndexError` branch). -/
def get_next_token (st : ClientState) :
    Except String (ClientState × TokenInfo) :=
  if st.tokens = [] then
    Except.error "没有可用的 token"
  else
    match st.tokens[st.current_token_index]? with
    | none => Except.error "IndexError"
    | some token =>
        Except.ok ({ st with
          current_token_index := (st.current_token_index + 1) % st.tokens.length }, token)

/-- Loop body of `create_batch_paint_data`: per pixel, acquire the next
token and build the packet, appending it to the accumulated batch bytes and
counting successes; an exception from `get_next_token` propagates with the
state as mutated so far. -/
def batch_loop (st : ClientState) (pixels : List Pixel) (acc : List Nat)
    (successful : Nat) : ClientState × Except String (List Nat × Nat) :=
  match pixels with
  | [] => (st, Except.ok (acc, successful))
  | pixel :: rest =>
    match get_next_token st with
    | Except.error e => (st, Except.error e)
    | Except.ok (st1, token_info) =>
      match create_single_paint_data st1 pixel token_info with
      | (st2, some paint_data) => batch_loop st2 rest (acc ++ paint_data) (successful + 1)
      | (st2, none) => batch_loop st2 rest acc successful

/-- Source method `create_batch_paint_data`: rejects the batch up front
when it has more pixels than `actual_batch_size`, otherwise encodes each
pixel with the next round-robin token; raises when every single packet
failed to build.  The returned state is the client state at return or at
the raise point. -/
def create_batch_paint_data (st : ClientState) (pixels : List Pixel) :
    ClientState × Except String (List Nat) :=
  if pixels.length > st.actual_batch_size then
    (st, Except.error "批量像素数量超过限制")
  else
    match batch_loop st pixels [] 0 with
    | (st', Except.error e) => (st', Except.error e)
    | (st', Except.ok (batch_data, successful)) =>
      if successful = 0 then (st', Except.error "所有像素数据包构建失败")
      else (st', Except.ok batch_data)

/-- State of the aggregation/sending machinery: the pending chunk list and
its running size (`self.chunks`, `self.total_size`), the per-second rate
counter and its window start (`self.packet_count`, `self.last_reset_time`),
and a ghost log `sent` of every frame written to the transport. -/
structure SenderState where
  chunks : List (List Nat) := []
  total_size : Nat := 0
  packet_count : Nat := 0
  last_reset_time : Nat := 0
  sent : List (List Nat) := []
  deriving Repr, DecidableEq

/-- Source method `append_data`: appends one encoded packet to the pending
chunk list and bumps the running size. -/
def append_data (st : SenderState) (paint_data : List Nat) : SenderState :=
  { st with chunks := st.chunks ++ [paint_data],
            total_size := st.total_size + paint_data.length }

/-- Source method `get_merged_data`: returns `none` when nothing is
pending, otherwise concatenates all chunks into one frame and clears the
buffer (under the invariant `total_size = sum of chunk lengths` maintained
by `append_data`, the copied bytearray is exactly the concatenation). -/
def get_merged_data (st : SenderState) : SenderState × Option (List Nat) :=
  if st.total_size = 0 then
    (st, none)
  else
    ({ st with total_size := 0, chunks := [] }, some st.chunks.flatten)

/-- One tick of the effective packet-sender loop (the second definition of
`start_packet_sender`, which overrides the first in the Python class
body).  With the connection up and the transport write succeeding: when
chunks are pending, merge them; drop the flush entirely when the merged
frame exceeds 32 KiB; otherwise write the frame and bump `packet_count`.
No rate-limit check is performed by this version. -/
def send_packets_tick (st : SenderState) : SenderState :=
  if st.chunks ≠ [] then
    match get_merged_data st with
    | (st1, none) => st1
    | (st1, some merged_data) =>
      if merged_data.length > 32 * 1024 then st1
      else { st1 with sent := st1.sent ++ [merged_data],
                      packet_count := st1.packet_count + 1 }
  else st

/-- One tick of the shadowed first definition of `start_packet_sender`
(lines 307-356), with the connection up and the transport write
succeeding: merge pending chunks (which clears the buffer), drop oversized
frames, reset the rate window when a full second elapsed, and skip the
send (`continue`) when `packet_count` has reached 256 — the already-merged
data is not re-queued on that path. -/
def send_packets_tick_v1 (st : SenderState) (now : Nat) : SenderState :=
  if st.chunks ≠ [] then
    match get_merged_data st with
    | (st1, none) => st1
    | (st1, some merged_data) =>
      if merged_data.length > 32 * 1024 then st1
      else
        let st2 := if now - st1.last_reset_time ≥ 1 then
            { st1 with packet_count := 0, last_reset_time := now }
          else st1
        if st2.packet_count ≥ 256 then st2
        else { st2 with sent := st2.sent ++ [merged_data],
                        packet_count := st2.packet_count + 1 }
  else st

/-- Inbound events produced while decoding one WebSocket frame: a board
pixel update (`handle_paint_message` / `on_paint_update`), the single-byte
`0xfb` heartbeat reply, a paint result dispatched to
`handle_paint_result`, or the logged unknown-opcode message. -/
inductive InEvent where
  | paint (x y r g b : Nat)
  | pong
  | result (paint_id code : Nat)
  | unknown (msg_type : Nat)
  deriving Repr, DecidableEq

/-- How decoding one frame ended: the whole buffer was consumed, a
truncated message was reported as incomplete (`break` after the
data-incomplete print), or an uncaught exception inside the loop was
caught by the outer handler (`IndexError` from a read past the end,
`KeyError` from `handle_paint_result`). -/
inductive DecodeEnd where
  | done
  | incomplete
  | fail
  deriving Repr, DecidableEq

/-- Source method `on_websocket_message`, the opcode-dispatch loop over one
binary frame.  `0xfa` checks `offset + 6 <= len(buffer)` but then reads 7
payload bytes, so a payload of exactly 6 bytes passes the check and the
read of `buffer[offset+6]` raises `IndexError`; `0xfc` replies with the
heartbeat pong and consumes no payload; `0xff` checks
`offset + 4 <= len(buffer)` but reads 5 payload bytes, so a payload of
exactly 4 bytes raises `IndexError`; any other opcode is printed as
unknown and the loop continues with the next byte. -/
def decode_msgs (now_ms : Nat) :
    ClientState → List Nat → ClientState × List InEvent × DecodeEnd
  | st, [] => (st, [], DecodeEnd.done)
  | st, msg_type :: rest =>
    if msg_type = 0xfa then
      if 6 ≤ rest.length then
        if 7 ≤ rest.length then
          let x := rest.getD 0 0 + 256 * rest.getD 1 0
          let y := rest.getD 2 0 + 256 * rest.getD 3 0
          let ev := InEvent.paint x y (rest.getD 4 0) (rest.getD 5 0) (rest.getD 6 0)
          let r := decode_msgs now_ms st (rest.drop 7)
          (r.1, ev :: r.2.1, r.2.2)
        else (st, [], DecodeEnd.fail)
      else (st, [], DecodeEnd.incomplete)
    else if msg_type = 0xfc then
      let r := decode_msgs now_ms st rest
      (r.1, InEvent.pong :: r.2.1, r.2.2)
    else if msg_type = 0xff then
      if 4 ≤ rest.length then
        if 5 ≤ rest.length then
          let paint_id := rest.getD 0 0 + 256 * rest.getD 1 0 +
            65536 * rest.getD 2 0 + 16777216 * rest.getD 3 0
          match handle_paint_result st paint_id (rest.getD 4 0) now_ms with
          | Except.error _ => (st, [], DecodeEnd.fail)
          | Except.ok (st1, _calls) =>
            let r := decode_msgs now_ms st1 (rest.drop 5)
            (r.1, InEvent.result paint_id (rest.getD 4 0) :: r.2.1, r.2.2)
        else (st, [], DecodeEnd.fail)
      else (st, [], DecodeEnd.incomplete)
    else
      let r := decode_msgs now_ms st rest
      (r.1, InEvent.unknown msg_type :: r.2.1, r.2.2)
  termination_by _st buffer => buffer.length
  decreasing_by
    all_goals simp [List.length_drop]
    all_goals omega

lemma uint_to_bytes_length (value num_bytes : Nat) :
    (uint_to_bytes value num_bytes).length = num_bytes := by
  induction num_bytes generalizing value with
  | zero => rfl
  | succ n ih => simp [uint_to_bytes, ih]

lemma uint_to_bytes_two (v : Nat) :
    uint_to_bytes v 2 = [v % 256, v / 256 % 256] := rfl

lemma bytes_to_uint_two (v : Nat) (h : v < 65536) :
    bytes_to_uint [v % 256, v / 256 % 256] = v := by
  simp only [bytes_to_uint]
  omega

/-- C1: for every pixel with in-range coordinates and colours and a token
decoding to exactly 16 bytes, `create_single_paint_data` produces a 31-byte
packet in the documented layout, and decoding that layout recovers the same
`(x, y, r, g, b)` together with a 16-byte token sequence. -/
theorem create_single_paint_data_roundtrip (st : ClientState) (p : Pixel)
    (tok : TokenInfo) (hx : p.x < 1000) (hy : p.y < 600)
    (htok : tok.tokenBytes.length = 16) :
    ∃ st' pkt, create_single_paint_data st p tok = (st', some pkt) ∧
      pkt.length = 31 ∧
      pkt = [0xfe] ++ uint_to_bytes p.x 2 ++ uint_to_bytes p.y 2 ++
        [p.r, p.g, p.b] ++ uint_to_bytes tok.uid 3 ++ tok.tokenBytes ++
        uint_to_bytes st.paint_id 4 ∧
      ∃ d, decode_wire_packet pkt = some d ∧
        d.x = p.x ∧ d.y = p.y ∧ d.r = p.r ∧ d.g = p.g ∧ d.b = p.b ∧
        d.token = tok.tokenBytes ∧ d.token.length = 16 := by
  have hpkt : [0xfe] ++ uint_to_bytes p.x 2 ++ uint_to_bytes p.y 2 ++
      [p.r, p.g, p.b] ++ uint_to_bytes tok.uid 3 ++ tok.tokenBytes ++
      uint_to_bytes st.paint_id 4 =
      0xfe :: (p.x % 256) :: (p.x / 256 % 256) :: (p.y % 256) ::
      (p.y / 256 % 256) :: p.r :: p.g :: p.b :: (tok.uid % 256) ::
      (tok.uid / 256 % 256) :: (tok.uid / 256 / 256 % 256) ::
      (tok.tokenBytes ++ [st.paint_id % 256, st.paint_id / 256 % 256,
        st.paint_id / 256 / 256 % 256, st.paint_id / 256 / 256 / 256 % 256]) := by
    simp [uint_to_bytes]
  have hlen : ([0xfe] ++ uint_to_bytes p.x 2 ++ uint_to_bytes p.y 2 ++
      [p.r, p.g, p.b] ++ uint_to_bytes tok.uid 3 ++ tok.tokenBytes ++
      uint_to_bytes st.paint_id 4).length = 31 := by
    simp [uint_to_bytes_length, htok]
  refine ⟨{ st with
      paint_id := (st.paint_id + 1) % 4294967296
      paint_callbacks := dict_set st.paint_callbacks st.paint_id p.callback },
    _, ?_, hlen, rfl, ?_⟩
  · simp only [create_single_paint_data]
    rw [if_neg (by simp [htok]), if_neg (by simp [uint_to_bytes_length, htok])]
  · rw [hpkt]
    have hlen' : (0xfe :: (p.x % 256) :: (p.x / 256 % 256) :: (p.y % 256) ::
        (p.y / 256 % 256) :: p.r :: p.g :: p.b :: (tok.uid % 256) ::
        (tok.uid / 256 % 256) :: (tok.uid / 256 / 256 % 256) ::
        (tok.tokenBytes ++ [st.paint_id % 256, st.paint_id / 256 % 256,
          st.paint_id / 256 / 256 % 256,
          st.paint_id / 256 / 256 / 256 % 256])).length = 31 := by
      rw [← hpkt]; exact hlen
    simp only [decode_wire_packet]
    rw [if_pos ⟨hlen', rfl⟩]
    refine ⟨_, rfl, ?_, ?_, rfl, rfl, rfl, ?_, ?_⟩
    · show bytes_to_uint [p.x % 256, p.x / 256 % 256] = p.x
      simp only [bytes_to_uint]
      omega
    · show bytes_to_uint [p.y % 256, p.y / 256 % 256] = p.y
      simp only [bytes_to_uint]
      omega
    · show (tok.tokenBytes ++ [st.paint_id % 256, st.paint_id / 256 % 256,
        st.paint_id / 256 / 256 % 256,
        st.paint_id / 256 / 256 / 256 % 256]).take 16 = tok.tokenBytes
      rw [← htok]
      exact List.take_left _ _
    · show ((tok.tokenBytes ++ [st.paint_id % 256, st.paint_id / 256 % 256,
        st.paint_id / 256 / 256 % 256,
        st.paint_id / 256 / 256 / 256 % 256]).take 16).length = 16
      rw [← htok, List.take_left]

/-- Concrete pixel used by witnesses. -/
def pixelW : Pixel := { x := 3, y := 4, r := 5, g := 6, b := 7 }

/-- Concrete token used by witnesses. -/
def tokenW : TokenInfo := { uid := 42, tokenBytes := List.replicate 16 9 }

/-- Witness for C1 at a concrete pixel, token and fresh client state. -/
theorem create_single_paint_data_roundtrip_witness :
    pixelW.x < 1000 ∧ pixelW.y < 600 ∧ tokenW.tokenBytes.length = 16 ∧
    (∃ st' pkt,
      create_single_paint_data ({} : ClientState) pixelW tokenW = (st', some pkt) ∧
      pkt.length = 31 ∧
      pkt = [0xfe] ++ uint_to_bytes pixelW.x 2 ++ uint_to_bytes pixelW.y 2 ++
        [pixelW.r, pixelW.g, pixelW.b] ++ uint_to_bytes tokenW.uid 3 ++
        tokenW.tokenBytes ++ uint_to_bytes ({} : ClientState).paint_id 4 ∧
      ∃ d, decode_wire_packet pkt = some d ∧
        d.x = pixelW.x ∧ d.y = pixelW.y ∧ d.r = pixelW.r ∧ d.g = pixelW.g ∧
        d.b = pixelW.b ∧ d.token = tokenW.tokenBytes ∧ d.token.length = 16) :=
  ⟨by decide, by decide, by decide,
    create_single_paint_data_roundtrip ({} : ClientState) pixelW tokenW
      (by decide) (by decide) (by decide)⟩

/-- C2: a paint result for an unregistered paintId is not discarded
quietly: the unconditional `del` raises `KeyError` (second conjunct),
while a registered paintId is removed and its callback invoked exactly
once with the mapped status (first conjunct). -/
theorem handle_paint_result_unregistered_keyerror :
    handle_paint_result { paint_callbacks := [(7, some 3)] } 7 0xee 0 =
      Except.ok ({ paint_callbacks := [] },
        [(3, { success := false, message := "正在冷却" })]) ∧
    handle_paint_result ({} : ClientState) 5 0xee 0 = Except.error "KeyError" := by
  constructor <;> rfl

/-- Concrete sender state whose one-second rate window is exhausted
(`packet_count = 256`, window started at the current tick) while one
chunk is pending. -/
def rateExhaustedState : SenderState :=
  { chunks := [[1]], total_size := 1, packet_count := 256,
    last_reset_time := 5, sent := [] }

/-- C3: the rate limit and backpressure are both broken.  In the shadowed
first sender (the only one with a rate check), a tick in an exhausted
window clears the pending buffer without sending or re-queueing it — the
buffered data is lost, not deferred (first conjunct).  The effective
sender (the later definition, which overrides the first) performs no rate
check at all and transmits a 257th frame inside the same window (second
conjunct). -/
theorem packet_sender_rate_window_bug :
    send_packets_tick_v1 rateExhaustedState 5 =
      { chunks := [], total_size := 0, packet_count := 256,
        last_reset_time := 5, sent := [] } ∧
    send_packets_tick rateExhaustedState =
      { chunks := [], total_size := 0, packet_count := 257,
        last_reset_time := 5, sent := [[1]] } := by
  constructor <;> rfl

/-- Concrete client state with one pending paint callback. -/
def pendingState : ClientState := { paint_callbacks := [(0, some 7)] }

/-- C4 counterexample: closing the engine with one pending request does
not leave the pending-callback map empty — the entry survives `close`. -/
theorem close_pending_counterexample :
    ¬ (close pendingState).paint_callbacks = [] := by
  decide

/-- C4 amended: `close` stops image drawing, clears the batch queue and
stops the loops, but does not touch the pending-callback map — pending
entries are neither resolved with a failure nor removed. -/
theorem close_clears_queue_not_callbacks (st : ClientState) :
    (close st).is_drawing_image = false ∧ (close st).batch_queue = [] ∧
    (close st).running = false ∧
    (close st).paint_callbacks = st.paint_callbacks ∧
    (close st).tokens = st.tokens ∧ (close st).paint_id = st.paint_id ∧
    (close st).last_batch_time = st.last_batch_time := by
  exact ⟨rfl, rfl, rfl, rfl, rfl, rfl, rfl⟩

/-- Witness for the amended C4 at the concrete one-pending state. -/
theorem close_clears_queue_not_callbacks_witness :
    (close pendingState).is_drawing_image = false ∧
    (close pendingState).batch_queue = [] ∧
    (close pendingState).running = false ∧
    (close pendingState).paint_callbacks = pendingState.paint_callbacks ∧
    (close pendingState).tokens = pendingState.tokens ∧
    (close pendingState).paint_id = pendingState.paint_id ∧
    (close pendingState).last_batch_time = pendingState.last_batch_time :=
  close_clears_queue_not_callbacks pendingState

/-- C7: a frame that passes the length pre-check but ends one byte short
of the payload crashes with an out-of-bounds read instead of being
reported incomplete: a `0xFA` tag with exactly 6 payload bytes and a
`0xFF` tag with exactly 4 payload bytes both end in `DecodeEnd.fail`
(the caught `IndexError`); one byte less than that and the pre-check
correctly reports the incomplete-frame condition. -/
theorem decode_truncated_message_oob :
    decode_msgs 0 ({} : ClientState) [0xfa, 1, 0, 2, 0, 3, 4] =
      (({} : ClientState), [], DecodeEnd.fail) ∧
    decode_msgs 0 ({} : ClientState) [0xff, 1, 0, 0, 0] =
      (({} : ClientState), [], DecodeEnd.fail) ∧
    decode_msgs 0 ({} : ClientState) [0xfa, 1, 0, 2, 0, 3] =
      (({} : ClientState), [], DecodeEnd.incomplete) ∧
    decode_msgs 0 ({} : ClientState) [0xff, 1, 0, 0] =
      (({} : ClientState), [], DecodeEnd.incomplete) := by
  refine ⟨?_, ?_, ?_, ?_⟩ <;> simp [decode_msgs]

/-- C5 counterexample: an inbound frame starting with the unknown opcode
`0x00` followed by a heartbeat probe is decoded without any error, and
the byte after the unknown opcode is interpreted as a further message
(the heartbeat reply is emitted) — decoding neither stops nor surfaces a
protocol error. -/
theorem unknown_opcode_counterexample :
    decode_msgs 0 ({} : ClientState) [0x00, 0xfc] =
      (({} : ClientState), [InEvent.unknown 0, InEvent.pong], DecodeEnd.done) := by
  simp [decode_msgs]

/-- C5 amended: on an opcode other than `0xFA`, `0xFC` and `0xFF` the
decoder logs the unknown type, consumes exactly that one byte, and
continues decoding the rest of the buffer as further messages; no error
is surfaced and no bytes are skipped beyond the unknown tag itself. -/
theorem unknown_opcode_continues (now_ms : Nat) (st : ClientState)
    (msg_type : Nat) (rest : List Nat) (hfa : msg_type ≠ 0xfa)
    (hfc : msg_type ≠ 0xfc) (hff : msg_type ≠ 0xff) :
    decode_msgs now_ms st (msg_type :: rest) =
      ((decode_msgs now_ms st rest).1,
       InEvent.unknown msg_type :: (decode_msgs now_ms st rest).2.1,
       (decode_msgs now_ms st rest).2.2) := by
  rcases h : decode_msgs now_ms st rest with ⟨st', evs, e⟩
  simp [decode_msgs, hfa, hfc, hff, h]

/-- Witness for the amended C5 at the counterexample's concrete input. -/
theorem unknown_opcode_continues_witness :
    (0 : Nat) ≠ 0xfa ∧ (0 : Nat) ≠ 0xfc ∧ (0 : Nat) ≠ 0xff ∧
    decode_msgs 0 ({} : ClientState) [0x00, 0xfc] =
      ((decode_msgs 0 ({} : ClientState) [0xfc]).1,
       InEvent.unknown 0 :: (decode_msgs 0 ({} : ClientState) [0xfc]).2.1,
       (decode_msgs 0 ({} : ClientState) [0xfc]).2.2) :=
  ⟨by decide, by decide, by decide,
    unknown_opcode_continues 0 ({} : ClientState) 0 [0xfc]
      (by decide) (by decide) (by decide)⟩

/-- C6: the packet sender never writes a frame of more than 32 KiB.  When
the merged pending buffer exceeds 32768 bytes the whole flush is skipped
and nothing is written (first conjunct); every frame in the transport log
after a tick is either an old frame or is at most 32768 bytes (second
conjunct); and a tick writes either nothing or the entire merged buffer as
one frame — it is never split or partially sent (third conjunct). -/
theorem sender_frame_size_bound (st : SenderState) :
    (st.chunks.flatten.length > 32 * 1024 →
      (send_packets_tick st).sent = st.sent) ∧
    (∀ f ∈ (send_packets_tick st).sent, f ∈ st.sent ∨ f.length ≤ 32 * 1024) ∧
    ((send_packets_tick st).sent = st.sent ∨
      (send_packets_tick st).sent = st.sent ++ [st.chunks.flatten]) := by
  unfold send_packets_tick
  by_cases h1 : st.chunks = []
  · rw [if_neg (by simp [h1])]
    exact ⟨fun _ => rfl, fun f hf => Or.inl hf, Or.inl rfl⟩
  · rw [if_pos h1]
    by_cases h2 : st.total_size = 0
    · have hm : get_merged_data st = (st, none) := by
        unfold get_merged_data
        rw [if_pos h2]
      rw [hm]
      exact ⟨fun _ => rfl, fun f hf => Or.inl hf, Or.inl rfl⟩
    · have hm : get_merged_data st =
          ({ st with total_size := 0, chunks := [] }, some st.chunks.flatten) := by
        unfold get_merged_data
        rw [if_neg h2]
      rw [hm]
      by_cases h3 : st.chunks.flatten.length > 32 * 1024
      · simp only [if_pos h3]
        exact ⟨fun _ => trivial, fun f hf => Or.inl hf, Or.inl trivial⟩
      · simp only [if_neg h3]
        refine ⟨fun hc => absurd hc h3, fun f hf => ?_, Or.inr trivial⟩
        have hf' : f ∈ st.sent ++ [st.chunks.flatten] := hf
        rcases List.mem_append.mp hf' with hold | hnew
        · exact Or.inl hold
        · rw [List.mem_singleton] at hnew
          subst hnew
          exact Or.inr (by omega)

/-- Concrete sender state holding a single pending chunk one byte past the
32 KiB ceiling. -/
def oversizedState : SenderState :=
  { chunks := [List.replicate 32769 0], total_size := 32769 }

/-- Witness for C6: a tick on the oversized pending buffer writes
nothing. -/
theorem sender_frame_size_bound_witness :
    (send_packets_tick oversizedState).sent = oversizedState.sent := by
  have hlen : oversizedState.chunks.flatten.length = 32769 := by
    show (List.flatten [List.replicate 32769 0]).length = 32769
    rw [List.flatten_cons, List.flatten_nil, List.append_nil,
      List.length_replicate]
  exact (sender_frame_size_bound oversizedState).1 (by rw [hlen]; omega)

/-- C8: a batch with more pixels than the token pool holds is rejected
before any pixel is processed — under the `actual_batch_size =
min(len(tokens), batch_size)` invariant established by `initialize` and
`refresh_tokens`, the capacity error is raised up front and the state is
returned unchanged: no packets are encoded, no paintIds allocated, no
callbacks registered, no token cursor movement. -/
theorem create_batch_capacity_reject (st : ClientState) (pixels : List Pixel)
    (hinv : st.actual_batch_size = min st.tokens.length st.batch_size)
    (hsize : pixels.length > st.tokens.length) :
    create_batch_paint_data st pixels =
      (st, Except.error "批量像素数量超过限制") := by
  have h : pixels.length > st.actual_batch_size := by
    rw [hinv]; omega
  unfold create_batch_paint_data
  rw [if_pos h]

/-- Concrete client state with a one-token pool. -/
def onePoolState : ClientState :=
  { tokens := [{ uid := 1, tokenBytes := List.replicate 16 0 }],
    batch_size := 10, actual_batch_size := 1 }

/-- Witness for C8: a two-pixel batch against the one-token pool is
rejected with the state unchanged. -/
theorem create_batch_capacity_reject_witness :
    onePoolState.actual_batch_size =
      min onePoolState.tokens.length onePoolState.batch_size ∧
    [pixelW, pixelW].length > onePoolState.tokens.length ∧
    create_batch_paint_data onePoolState [pixelW, pixelW] =
      (onePoolState, Except.error "批量像素数量超过限制") :=
  ⟨by decide, by decide,
    create_batch_capacity_reject onePoolState [pixelW, pixelW]
      (by decide) (by decide)⟩

/-- C10 counterexample: an inbound paint result with the success code
`0xEF` for an unregistered paintId does not set `last_batch_time` — the
handler raises before reaching the update, so there is no successful
outcome at all at this input. -/
theorem success_cooldown_unregistered_counterexample :
    ¬ ∃ r, handle_paint_result ({} : ClientState) 0 0xef 100 = Except.ok r ∧
      r.1.last_batch_time = 100 := by
  rintro ⟨r, hr, -⟩
  rw [show handle_paint_result ({} : ClientState) 0 0xef 100 =
    Except.error "KeyError" from rfl] at hr
  exact absurd hr (by simp)

/-- C10 amended: for a registered paintId, handling a paint result with
status `0xEF` sets `last_batch_time` to the current time (restarting the
batch cooldown window even though no batch was submitted), and every
other status code leaves `last_batch_time` unchanged; for an unregistered
paintId the handler raises before the update, so `last_batch_time` is
unchanged even on `0xEF`. -/
theorem handle_result_cooldown_update (st : ClientState)
    (paint_id code now_ms : Nat)
    (h : dict_mem st.paint_callbacks paint_id = true) :
    ∃ st' calls, handle_paint_result st paint_id code now_ms =
        Except.ok (st', calls) ∧
      st'.last_batch_time =
        (if code = 0xef then now_ms else st.last_batch_time) := by
  unfold handle_paint_result
  rw [if_pos h]
  refine ⟨_, _, rfl, ?_⟩
  by_cases hc : code = 0xef <;> simp [hc]

/-- Trace of `m` consecutive `get_next_token` calls: the final state and
the list of returned tokens in call order; any raise aborts the trace. -/
def acquire_trace : ClientState → Nat → Except String (ClientState × List TokenInfo)
  | st, 0 => Except.ok (st, [])
  | st, m + 1 =>
    match get_next_token st with
    | Except.error e => Except.error e
    | Except.ok (st1, token) =>
      match acquire_trace st1 m with
      | Except.error e => Except.error e
      | Except.ok (st2, tokens) => Except.ok (st2, token :: tokens)

lemma get_next_token_ok (st : ClientState)
    (h : st.current_token_index < st.tokens.length) :
    get_next_token st = Except.ok ({ st with current_token_index :=
        (st.current_token_index + 1) % st.tokens.length },
      st.tokens.get ⟨st.current_token_index, h⟩) := by
  have hne : ¬ st.tokens = [] := by
    intro he
    rw [he] at h
    simp at h
  unfold get_next_token
  rw [if_neg hne, List.getElem?_eq_getElem h]
  rfl

lemma acquire_trace_cycle (m : Nat) : ∀ st : ClientState,
    st.current_token_index < st.tokens.length →
    m = st.tokens.length - st.current_token_index →
    acquire_trace st m =
      Except.ok ({ st with current_token_index := 0 },
        st.tokens.drop st.current_token_index) := by
  induction m with
  | zero =>
    intro st hlt hm
    omega
  | succ m ih =>
    intro st hlt hm
    simp only [acquire_trace, get_next_token_ok st hlt]
    by_cases hlast : st.current_token_index + 1 = st.tokens.length
    · have hm0 : m = 0 := by omega
      subst hm0
      simp only [acquire_trace]
      have hcur : (st.current_token_index + 1) % st.tokens.length = 0 := by
        rw [hlast, Nat.mod_self]
      rw [hcur]
      have hdrop : st.tokens.drop st.current_token_index =
          [st.tokens.get ⟨st.current_token_index, hlt⟩] := by
        rw [List.drop_eq_getElem_cons hlt,
          show st.current_token_index + 1 = st.tokens.length from hlast,
          List.drop_length]
        rfl
      rw [hdrop]
    · have hlt1 : st.current_token_index + 1 < st.tokens.length := by omega
      have hmod : (st.current_token_index + 1) % st.tokens.length =
          st.current_token_index + 1 := Nat.mod_eq_of_lt hlt1
      rw [hmod]
      have hrec := ih { st with current_token_index := st.current_token_index + 1 }
        (by simpa using hlt1) (by simp; omega)
      simp only at hrec
      simp only [hrec]
      rw [List.drop_eq_getElem_cons hlt]
      rfl

lemma acquire_trace_add_ok (b : Nat) : ∀ (a : Nat) (st st1 st2 : ClientState)
    (tr1 tr2 : List TokenInfo),
    acquire_trace st a = Except.ok (st1, tr1) →
    acquire_trace st1 b = Except.ok (st2, tr2) →
    acquire_trace st (a + b) = Except.ok (st2, tr1 ++ tr2) := by
  intro a
  induction a with
  | zero =>
    intro st st1 st2 tr1 tr2 h1 h2
    simp only [acquire_trace, Except.ok.injEq, Prod.mk.injEq] at h1
    rcases h1 with ⟨rfl, rfl⟩
    simpa using h2
  | succ a ih =>
    intro st st1 st2 tr1 tr2 h1 h2
    rw [show a + 1 + b = (a + b) + 1 from by omega]
    simp only [acquire_trace] at h1 ⊢
    cases hg : get_next_token st with
    | error e =>
      simp only [hg] at h1
      exact Except.noConfusion h1
    | ok p =>
      obtain ⟨stm, tok⟩ := p
      simp only [hg] at h1 ⊢
      cases ha : acquire_trace stm a with
      | error e =>
        simp only [ha] at h1
        exact Except.noConfusion h1
      | ok q =>
        obtain ⟨stm2, trm⟩ := q
        simp only [ha, Except.ok.injEq, Prod.mk.injEq] at h1
        rcases h1 with ⟨rfl, rfl⟩
        simp only [ih _ _ _ _ _ ha h2]
        simp

lemma acquire_trace_cycles (st : ClientState) (hne : st.tokens ≠ [])
    (hc : st.current_token_index = 0) (k : Nat) :
    acquire_trace st (k * st.tokens.length) =
      Except.ok ({ st with current_token_index := 0 },
        (List.replicate k st.tokens).flatten) := by
  have hid : ({ st with current_token_index := 0 } : ClientState) = st := by
    rw [← hc]
  have hpos : 0 < st.tokens.length := List.length_pos.mpr hne
  induction k with
  | zero =>
    simp only [Nat.zero_mul, acquire_trace, List.replicate_zero,
      List.flatten_nil]
    rw [hid]
  | succ k ih =>
    rw [show (k + 1) * st.tokens.length =
      st.tokens.length + k * st.tokens.length from by ring]
    have hcycle := acquire_trace_cycle st.tokens.length st
      (by omega) (by omega)
    rw [hc, List.drop_zero] at hcycle
    have hrest := ih
    rw [← hid] at hrest
    have := acquire_trace_add_ok (k * st.tokens.length) st.tokens.length st
      { st with current_token_index := 0 } { st with current_token_index := 0 }
      st.tokens ((List.replicate k st.tokens).flatten) hcycle hrest
    rw [this]
    simp [List.replicate_succ]

lemma count_flatten_replicate (l : List TokenInfo) (t : TokenInfo) (k : Nat) :
    (List.replicate k l).flatten.count t = k * l.count t := by
  induction k with
  | zero => simp
  | succ k ih =>
    simp only [List.replicate_succ, List.flatten_cons, List.count_append, ih]
    ring

/-- C9: round-robin token rotation.  Starting from cursor 0 on a non-empty
pool, `k · len(pool)` consecutive `get_next_token` calls return the pool
repeated `k` times in order — so each token is returned exactly `k` times
— with the cursor back at 0 (first conjunct); each single call on a valid
cursor returns the token at the cursor and advances the cursor by one
modulo the pool size (second conjunct); a call on an empty pool fails
with the no-tokens-available error (third conjunct). -/
theorem get_next_token_round_robin (st : ClientState) (k : Nat)
    (hne : st.tokens ≠ []) (hc : st.current_token_index = 0) :
    (∃ st', acquire_trace st (k * st.tokens.length) =
        Except.ok (st', (List.replicate k st.tokens).flatten) ∧
      st'.tokens = st.tokens ∧ st'.current_token_index = 0 ∧
      ∀ t : TokenInfo,
        (List.replicate k st.tokens).flatten.count t = k * st.tokens.count t) ∧
    (∀ s : ClientState, ∀ h : s.current_token_index < s.tokens.length,
      get_next_token s = Except.ok ({ s with current_token_index :=
          (s.current_token_index + 1) % s.tokens.length },
        s.tokens.get ⟨s.current_token_index, h⟩)) ∧
    (∀ s : ClientState, s.tokens = [] →
      get_next_token s = Except.error "没有可用的 token") := by
  refine ⟨⟨{ st with current_token_index := 0 },
      acquire_trace_cycles st hne hc k, rfl, rfl,
      fun t => count_flatten_replicate st.tokens t k⟩,
    fun s h => get_next_token_ok s h, fun s hs => ?_⟩
  unfold get_next_token
  rw [if_pos hs]

/-- Second concrete token used by the round-robin witness. -/
def tokenW2 : TokenInfo := { uid := 43, tokenBytes := List.replicate 16 8 }

/-- Concrete client state with a two-token pool and cursor 0. -/
def poolState : ClientState := { tokens := [tokenW, tokenW2] }

/-- Witness for C9 on the two-token pool with k = 2. -/
theorem get_next_token_round_robin_witness :
    poolState.tokens ≠ [] ∧ poolState.current_token_index = 0 ∧
    (∃ st', acquire_trace poolState (2 * poolState.tokens.length) =
        Except.ok (st', (List.replicate 2 poolState.tokens).flatten) ∧
      st'.tokens = poolState.tokens ∧ st'.current_token_index = 0 ∧
      ∀ t : TokenInfo, (List.replicate 2 poolState.tokens).flatten.count t =
        2 * poolState.tokens.count t) :=
  ⟨by decide, rfl, (get_next_token_round_robin poolState 2 (by decide) rfl).1⟩

/-- Concrete client state with one registered paint callback. -/
def registeredState : ClientState := { paint_callbacks := [(7, some 3)] }

/-- Witness for the amended C10 at a concrete registered paintId with the
success status code. -/
theorem handle_result_cooldown_update_witness :
    dict_mem registeredState.paint_callbacks 7 = true ∧
    ∃ st' calls, handle_paint_result registeredState 7 0xef 55 =
        Except.ok (st', calls) ∧
      st'.last_batch_time =
        (if (0xef : Nat) = 0xef then 55 else registeredState.last_batch_time) :=
  ⟨by decide, handle_result_cooldown_update registeredState 7 0xef 55 (by decide)⟩

end Paintboard
